import Mathlib

/-
Verification of the localGPT ingestion/retrieval core against its
natural-language specification.

The development shallowly embeds the Python sources:
  - src/localGPT/server/ingest/model.py        (IngestedDoc, metadata curation)
  - src/localGPT/components/_ingest_helper.py  (IngestionHelper)
  - src/localGPT/server/chunks/service.py      (Chunk, ChunksService)
  - src/localGPT/components/ingest.py          (ingestion strategies)

Python dicts are embedded as association lists (unique keys are not assumed;
every lemma is stated so that it holds for the embedding as written).
In-place mutation is embedded as explicit state passing: a function that
mutates an argument returns the post-state of that argument.
Fallible operations return Except.  Operations implemented by the llama_index
library (not part of this repository's sources) are modelled from the spec and
say so in their doc comments.
-/

set_option autoImplicit false

namespace LocalGPT

/-- Values stored in a document or node metadata mapping. -/
inductive MetaVal where
  | str (s : String)
  | int (n : Int)
  | boolean (b : Bool)
  | null
deriving DecidableEq, Repr

/-- First value bound to key `k` in an association list (Python `dict[k]` /
`dict.get(k)`). -/
def lookupKey {α : Type} (k : String) : List (String × α) → Option α
  | [] => none
  | (k', v) :: rest => if k' = k then some v else lookupKey k rest

/-- Removal of key `k` (Python `dict.pop(k, None)`); keys are unique in a
Python dict, so removing every binding of `k` is the faithful rendering. -/
def popKey {α : Type} (k : String) : List (String × α) → List (String × α)
  | [] => []
  | (k', v) :: rest => if k' = k then popKey k rest else (k', v) :: popKey k rest

/-- Assignment `dict[k] = v`: replaces the value at `k` in place, or appends a
new binding when `k` is absent. -/
def setKey {α : Type} (k : String) (v : α) : List (String × α) → List (String × α)
  | [] => [(k, v)]
  | (k', v') :: rest => if k' = k then (k, v) :: rest else (k', v') :: setKey k v rest

/-- Embeds `llama_index.Document` as the repository uses it: a stable id,
text, a metadata mapping, the two exclusion key lists, and a content hash. -/
structure Document where
  doc_id : String
  text : String
  metadata : List (String × MetaVal)
  excluded_embed_metadata_keys : List String
  excluded_llm_metadata_keys : List String
  hash : String
deriving DecidableEq, Repr

/-- Embeds `IngestedDoc` (server/ingest/model.py): object tag, doc id and the
curated metadata. -/
structure IngestedDoc where
  object : String
  doc_id : String
  doc_metadata : Option (List (String × MetaVal))
deriving DecidableEq, Repr

/-- Embeds `IngestedDoc.curate_metadata` (server/ingest/model.py, lines 28-41):
`for key in ["doc_id", "window", "original_text"]: metadata.pop(key, None)`.
The function mutates the mapping it is given and returns it; the embedding
returns the post-state of the mapping. -/
def curate_metadata (metadata : List (String × MetaVal)) : List (String × MetaVal) :=
  ["doc_id", "window", "original_text"].foldl (fun m key => popKey key m) metadata

/-- Embeds `IngestedDoc.from_document` (server/ingest/model.py, lines 43-58).
Python passes `document.metadata` itself to `curate_metadata`, which pops keys
from that very dict, so the call mutates the source Document; the embedding
returns the constructed `IngestedDoc` together with the post-call state of the
source Document. -/
def from_document (document : Document) : IngestedDoc × Document :=
  let curated := curate_metadata document.metadata
  ({ object := "ingest.document", doc_id := document.doc_id, doc_metadata := some curated },
   { document with metadata := curated })

/-- Embeds `IngestionHelper._exclude_metadata` on one document
(components/_ingest_helper.py, lines 58-69): writes `metadata["doc_id"]` and
overwrites both exclusion key lists. -/
def exclude_metadata_doc (document : Document) : Document :=
  { document with
    metadata := setKey "doc_id" (MetaVal.str document.doc_id) document.metadata
    excluded_embed_metadata_keys := ["doc_id"]
    excluded_llm_metadata_keys := ["file_name", "doc_id", "page_label"] }

/-- Embeds `IngestionHelper._exclude_metadata` over the whole document list. -/
def exclude_metadata (documents : List Document) : List Document :=
  documents.map exclude_metadata_doc

/-- Embeds `llama_index.schema.RelatedNodeInfo` as the chunk service uses it:
only the id of the related node is read. -/
structure RelatedNodeInfo where
  node_id : String
deriving DecidableEq, Repr

/-- Embeds a stored node (`llama_index` `BaseNode`) as the repository reads it:
content, metadata, owning-document back reference and the sibling links. -/
structure Node where
  node_id : String
  content : String
  metadata : List (String × MetaVal)
  embedding : Option (List ℚ)
  ref_doc_id : Option String
  prev_node : Option RelatedNodeInfo
  next_node : Option RelatedNodeInfo
deriving DecidableEq, Repr

/-- Embeds `llama_index.schema.NodeWithScore`: a node plus an optional
similarity score. -/
structure NodeWithScore where
  node : Node
  score : Option ℚ
deriving DecidableEq, Repr

/-- Python `x or default` applied to an optional float, as in
`node.score or 0.0`: both `None` and `0.0` are falsy and yield the default. -/
def orFloat (x : Option ℚ) (default : ℚ) : ℚ :=
  match x with
  | none => default
  | some s => if s = 0 then default else s

/-- Embeds `Chunk` (server/chunks/service.py, lines 21-45). -/
structure Chunk where
  object : String
  score : ℚ
  document : IngestedDoc
  text : String
  previous_texts : Option (List String)
  next_texts : Option (List String)
deriving DecidableEq, Repr

/-- Embeds `Chunk.from_node` (server/chunks/service.py, lines 47-66):
`doc_id = node.node.ref_doc_id if node.node.ref_doc_id is not None else "-"`,
`score = node.score or 0.0`, metadata passed through uncurated. -/
def Chunk.from_node (node : NodeWithScore) : Chunk :=
  let doc_id :=
    match node.node.ref_doc_id with
    | some r => r
    | none => "-"
  { object := "context.chunk"
    score := orFloat node.score 0
    document := { object := "ingest.document", doc_id := doc_id, doc_metadata := some node.node.metadata }
    text := node.node.content
    previous_texts := none
    next_texts := none }

/-- The node store (`storage_context.docstore`) as read by the chunk service:
node id to node. -/
def DocStore : Type := List (String × Node)

/-- Modelled from the spec: `BaseDocumentStore.get_node` is llama_index code,
not part of this repository's sources.  Per the spec's error taxonomy (§7),
lookup of an id absent from the store surfaces a defined "not found" condition
(llama_index raises `ValueError`); the embedding returns it as an error, which
the calling repository code may or may not handle. -/
def get_node (store : DocStore) (node_id : String) : Except String Node :=
  match lookupKey node_id store with
  | some n => Except.ok n
  | none => Except.error ("node_id " ++ node_id ++ " not found")

/-- The sibling pointer read each iteration of the walk:
`current_node.next_node if forward else current_node.prev_node`. -/
def sibling_step (node : Node) (forward : Bool) : Option RelatedNodeInfo :=
  if forward then node.next_node else node.prev_node

/-- Embeds the loop body of `ChunksService._get_sibling_nodes_text`
(server/chunks/service.py, lines 99-128) from the current node: up to
`related_number` iterations; a `None` sibling pointer breaks out of the loop;
a store lookup is performed on the pointer's id with no surrounding handler,
so a lookup error propagates out of the walk. -/
def get_sibling_nodes_text_from (store : DocStore) (current : Node) (related_number : Nat) (forward : Bool) : Except String (List String) :=
  match related_number with
  | 0 => Except.ok []
  | n + 1 =>
    match sibling_step current forward with
    | none => Except.ok []
    | some info =>
      match get_node store info.node_id with
      | Except.error e => Except.error e
      | Except.ok explored =>
        match get_sibling_nodes_text_from store explored n forward with
        | Except.error e => Except.error e
        | Except.ok rest => Except.ok (explored.content :: rest)

/-- Embeds `ChunksService._get_sibling_nodes_text` applied to the retrieved
`NodeWithScore`. -/
def get_sibling_nodes_text (store : DocStore) (node_with_score : NodeWithScore) (related_number : Nat) (forward : Bool) : Except String (List String) :=
  get_sibling_nodes_text_from store node_with_score.node related_number forward

/-- Embeds the result loop of `ChunksService.retrieve_relevant`
(server/chunks/service.py, lines 130-171), starting from the list of nodes the
vector retriever returned (the retriever itself is the opaque vector-database
collaborator): for each node a chunk is built and both sibling walks run, with
no exception handling, so a walk error fails the whole request. -/
def retrieve_relevant (store : DocStore) (nodes : List NodeWithScore) (prev_next_chunks : Nat) : Except String (List Chunk) :=
  match nodes with
  | [] => Except.ok []
  | n :: rest =>
    match get_sibling_nodes_text store n prev_next_chunks false with
    | Except.error e => Except.error e
    | Except.ok prev =>
      match get_sibling_nodes_text store n prev_next_chunks true with
      | Except.error e => Except.error e
      | Except.ok next =>
        match retrieve_relevant store rest prev_next_chunks with
        | Except.error e => Except.error e
        | Except.ok others =>
          Except.ok ({ Chunk.from_node n with previous_texts := some prev, next_texts := some next } :: others)

/-- States that `ns` is the exact sibling chain reachable from `current` in
direction `forward`: each step's pointer is present and resolves in the store
to the next chain element, and the last element's pointer is `none` (the chain
boundary). -/
def chain_from (store : DocStore) (forward : Bool) : Node → List Node → Bool
  | current, [] => (sibling_step current forward).isNone
  | current, n :: rest =>
    match sibling_step current forward with
    | none => false
    | some info =>
      decide (lookupKey info.node_id store = some n) && chain_from store forward n rest

/-- A concrete node whose forward sibling pointer targets node id "b", which is
absent from `dangling_store` (as after a concurrent delete of "b"). -/
def dangling_node : Node :=
  { node_id := "a", content := "alpha", metadata := [], embedding := none
    ref_doc_id := some "doc-1", prev_node := none, next_node := some { node_id := "b" } }

/-- A store containing only `dangling_node`. -/
def dangling_store : DocStore := [("a", dangling_node)]

/-- Embeds the Index Store state the ingestion pipeline mutates (spec §3):
document store (`ref_docs` maps a doc id to its node ids, `nodes` holds node
content by node id), the vector index, and the doc-id-to-content-hash map. -/
structure IndexStore where
  ref_docs : List (String × List String)
  nodes : List (String × Node)
  embeddings : List (String × List ℚ)
  hashes : List (String × String)
deriving DecidableEq, Repr

/-- The pipeline-visible state: the live Index Store plus the persisted
on-disk snapshot (`none` until the first persist). -/
structure PipelineState where
  store : IndexStore
  persisted : Option IndexStore
deriving DecidableEq, Repr

/-- Embeds `BaseIngestComponentWithIndex._save_index`
(components/ingest.py, lines 147-153): persists the live store. -/
def save_index (st : PipelineState) : PipelineState :=
  { st with persisted := some st.store }

/-- Modelled from the spec: `BaseIndex.delete_ref_doc` is llama_index code,
not part of this repository's sources.  Per spec §4.3/§7, deleting a `doc_id`
absent from the store fails with a defined "not found" condition and mutates
nothing; otherwise the document's nodes are removed from the document store,
the vector index, and the hash map. -/
def delete_ref_doc (store : IndexStore) (doc_id : String) : Except String IndexStore :=
  match lookupKey doc_id store.ref_docs with
  | none => Except.error ("doc_id " ++ doc_id ++ " not found")
  | some node_ids =>
    Except.ok
      { ref_docs := popKey doc_id store.ref_docs
        nodes := store.nodes.filter (fun kv => !(node_ids.contains kv.1))
        embeddings := store.embeddings.filter (fun kv => !(node_ids.contains kv.1))
        hashes := popKey doc_id store.hashes }

/-- Embeds `BaseIngestComponentWithIndex.delete` (components/ingest.py,
lines 155-166): under the index lock, `delete_ref_doc` then `_save_index`.
An error from `delete_ref_doc` propagates before `_save_index` runs, so the
pipeline state component of the result is the unchanged input state. -/
def delete (st : PipelineState) (doc_id : String) : Except String Unit × PipelineState :=
  match delete_ref_doc st.store doc_id with
  | Except.error e => (Except.error e, st)
  | Except.ok store2 => (Except.ok (), save_index { st with store := store2 })

/-- Modelled from the spec: the interior of `BaseIndex.insert_nodes` is
llama_index code, not part of this repository's sources.  Per spec §3 it adds
each node to the document store, its embedding to the vector index, and its id
to its owning document's node list; it does not touch the hash map. -/
def insert_nodes (store : IndexStore) (ns : List Node) : IndexStore :=
  { store with
    nodes := ns.foldl (fun m n => setKey n.node_id n m) store.nodes
    embeddings := ns.foldl (fun m n =>
      match n.embedding with
      | some v => setKey n.node_id v m
      | none => m) store.embeddings
    ref_docs := ns.foldl (fun m n =>
      match n.ref_doc_id with
      | some r => setKey r ((lookupKey r m).getD [] ++ [n.node_id]) m
      | none => m) store.ref_docs }

/-- Embeds `docstore.set_document_hash(doc_id, hash)`: records
`doc_id → content_hash` in the hash map. -/
def set_document_hash (store : IndexStore) (doc_id : String) (h : String) : IndexStore :=
  { store with hashes := setKey doc_id h store.hashes }

/-- Modelled from the spec: `BaseIndex.insert(document)` (called by
`SimpleIngestComponent._save_docs`) is llama_index code, not part of this
repository's sources.  Per spec §4.3, inserting a Document turns it into nodes,
inserts those nodes, and then records `doc_id → content_hash`. -/
def index_insert (transform : Document → List Node) (store : IndexStore) (document : Document) : IndexStore :=
  set_document_hash (insert_nodes store (transform document)) document.doc_id document.hash

/-- Embeds `SimpleIngestComponent._save_docs` (components/ingest.py, lines
228-245) on the state: under the index lock, insert each document, then
persist.  The node transformation performed by each `insert` is the abstract
`transform` argument. -/
def simple_save_docs (transform : Document → List Node) (st : PipelineState) (documents : List Document) : PipelineState × List Document :=
  let store2 := documents.foldl (fun s d => index_insert transform s d) st.store
  (save_index { st with store := store2 }, documents)

/-- Embeds `BatchIngestComponent._save_docs` (components/ingest.py, lines
316-341) on the state: `run_transformations` (the abstract `transform`
argument, which per the constructor assertion includes the embedding step)
outside the lock, then under the lock `insert_nodes`, one
`set_document_hash` per document, and persist. -/
def batch_save_docs (transform : List Document → List Node) (st : PipelineState) (documents : List Document) : PipelineState × List Document :=
  let nodes := transform documents
  let store2 := insert_nodes st.store nodes
  let store3 := documents.foldl (fun s d => set_document_hash s d.doc_id d.hash) store2
  (save_index { st with store := store3 }, documents)

/-- Embeds `ParallelizedIngestComponent._save_docs` (components/ingest.py,
lines 420-446); its body has the same structure as the batch strategy's. -/
def parallelized_save_docs (transform : List Document → List Node) (st : PipelineState) (documents : List Document) : PipelineState × List Document :=
  let nodes := transform documents
  let store2 := insert_nodes st.store nodes
  let store3 := documents.foldl (fun s d => set_document_hash s d.doc_id d.hash) store2
  (save_index { st with store := store3 }, documents)

/-- Embeds the two `assert` preconditions of `BatchIngestComponent.__init__`
(components/ingest.py, lines 261-279), in source order: at least two
transformations (the embedding must be among them), then `count_workers > 0`.
A failed Python `assert` raises, embedded as an error result; passing both
checks reaches the worker-pool creation. -/
def batch_ingest_component_init (transformations_count : Nat) (count_workers : Int) : Except String Unit :=
  if transformations_count < 2 then Except.error "Embeddings must be in the transformations"
  else if count_workers ≤ 0 then Except.error "count_workers must be greater than 0"
  else Except.ok ()

/-- Embeds the two `assert` preconditions of
`ParallelizedIngestComponent.__init__` (components/ingest.py, lines 356-380),
which are identical to the batch strategy's. -/
def parallelized_ingest_component_init (transformations_count : Nat) (count_workers : Int) : Except String Unit :=
  if transformations_count < 2 then Except.error "Embeddings must be in the transformations"
  else if count_workers ≤ 0 then Except.error "count_workers must be greater than 0"
  else Except.ok ()

/-- File contents as handed to the readers; `content` is
`file_data.read_text()`. -/
structure FileData where
  content : String
deriving DecidableEq, Repr

/-- Embeds `pathlib.Path(file_name).suffix`: the extension (with its dot) of
the final path component, empty when the name has no dot, starts with its only
dot, or ends with its last dot. -/
def path_suffix (file_name : String) : String :=
  let base := ((file_name.splitOn "/").filter (fun c => c ≠ "")).getLastD ""
  let parts := base.splitOn "."
  if parts.length < 2 then ""
  else if parts.getLastD "" = "" then ""
  else if parts.length = 2 ∧ parts.headD "" = "" then ""
  else "." ++ parts.getLastD ""

/-- Embeds `StringIterableReader().load_data(texts)`: one Document per input
string, with empty metadata.  Document ids and hashes are generated by
llama_index (content-derived per spec §3) and are held abstract as the
`mk_doc_id` and `mk_hash` arguments. -/
def string_iterable_reader_load_data (mk_doc_id mk_hash : String → String) (texts : List String) : List Document :=
  texts.map (fun t =>
    { doc_id := mk_doc_id t, text := t, metadata := []
      excluded_embed_metadata_keys := [], excluded_llm_metadata_keys := []
      hash := mk_hash t })

/-- Embeds `IngestionHelper._load_file_to_documents`
(components/_ingest_helper.py, lines 35-56).  `readers` stands for
`FILE_READER_CLS` (llama_index's default extension table updated with
`.json`; the table's contents are llama_index data, held abstract): when the
file's suffix has no registered reader the raw text is fed to the plain-text
string reader, otherwise the registered reader runs (and may fail). -/
def load_file_to_documents (readers : List (String × (FileData → Except String (List Document)))) (mk_doc_id mk_hash : String → String) (file_name : String) (file_data : FileData) : Except String (List Document) :=
  match lookupKey (path_suffix file_name) readers with
  | none => Except.ok (string_iterable_reader_load_data mk_doc_id mk_hash [file_data.content])
  | some reader => reader file_data

/-- Embeds `IngestionHelper.transform_file_to_documents`
(components/_ingest_helper.py, lines 18-33): load, then write the `file_name`
metadata key on every document, then `_exclude_metadata`. -/
def transform_file_to_documents (readers : List (String × (FileData → Except String (List Document)))) (mk_doc_id mk_hash : String → String) (file_name : String) (file_data : FileData) : Except String (List Document) :=
  match load_file_to_documents readers mk_doc_id mk_hash file_name file_data with
  | Except.error e => Except.error e
  | Except.ok documents =>
    Except.ok (exclude_metadata (documents.map (fun d =>
      { d with metadata := setKey "file_name" (MetaVal.str file_name) d.metadata })))

/-- The observable events of one ingestion call, in program order:
`extract` is `IngestionHelper.transform_file_to_documents`, `transform` is
`run_transformations` (node parsing plus embedding), `acquire`/`release`
delimit `with self._index_thread_lock`, and the remaining events are the store
mutations and the persist. -/
inductive IngestEvent where
  | extract
  | transform
  | acquire
  | release
  | insert_document
  | insert_nodes_event
  | set_hash
  | persist
deriving DecidableEq, Repr

/-- The store-mutation and persist events: exactly what the critical section
is allowed to contain. -/
def is_store_mutation_or_persist : IngestEvent → Bool
  | IngestEvent.insert_document => true
  | IngestEvent.insert_nodes_event => true
  | IngestEvent.set_hash => true
  | IngestEvent.persist => true
  | _ => false

/-- The expensive pipeline stages: extraction and node
transformation/embedding. -/
def is_expensive : IngestEvent → Bool
  | IngestEvent.extract => true
  | IngestEvent.transform => true
  | _ => false

/-- The sublist of non-lock events that occur while the lock is held
(lock depth greater than zero), scanning with the given starting depth. -/
def events_under_lock : Nat → List IngestEvent → List IngestEvent
  | _, [] => []
  | d, IngestEvent.acquire :: rest => events_under_lock (d + 1) rest
  | d, IngestEvent.release :: rest => events_under_lock (d - 1) rest
  | 0, _ :: rest => events_under_lock 0 rest
  | d + 1, e :: rest => e :: events_under_lock (d + 1) rest

/-- An event the critical section may contain: a store mutation or persist,
and in particular not one of the expensive stages. -/
def lock_section_ok (e : IngestEvent) : Bool :=
  is_store_mutation_or_persist e && !(is_expensive e)

/-- Event trace of `SimpleIngestComponent._save_docs` (components/ingest.py,
lines 228-245): lock, one `insert` per document, persist, unlock. -/
def simple_save_docs_events (documents : List Document) : List IngestEvent :=
  IngestEvent.acquire :: (documents.map (fun _ => IngestEvent.insert_document)
    ++ [IngestEvent.persist, IngestEvent.release])

/-- Event trace of `SimpleIngestComponent.ingest` (lines 193-208): extract,
then `_save_docs`; the argument is the extraction result. -/
def simple_ingest_events (documents : List Document) : List IngestEvent :=
  IngestEvent.extract :: simple_save_docs_events documents

/-- Event trace of `SimpleIngestComponent.bulk_ingest` (lines 210-226): per
file, extract then `_save_docs`; the argument gives each file's extraction
result. -/
def simple_bulk_ingest_events (files : List (List Document)) : List IngestEvent :=
  (files.map (fun documents => IngestEvent.extract :: simple_save_docs_events documents)).flatten

/-- Event trace of `BatchIngestComponent._save_docs` (lines 316-341):
`run_transformations` outside the lock, then lock, `insert_nodes`, one
`set_document_hash` per document, persist, unlock. -/
def batch_save_docs_events (documents : List Document) : List IngestEvent :=
  IngestEvent.transform :: IngestEvent.acquire :: IngestEvent.insert_nodes_event ::
    (documents.map (fun _ => IngestEvent.set_hash)
      ++ [IngestEvent.persist, IngestEvent.release])

/-- Event trace of `BatchIngestComponent.ingest` (lines 281-295). -/
def batch_ingest_events (documents : List Document) : List IngestEvent :=
  IngestEvent.extract :: batch_save_docs_events documents

/-- Event trace of `BatchIngestComponent.bulk_ingest` (lines 297-314): every
file is extracted in the worker pool, then one `_save_docs` runs over the
concatenated documents. -/
def batch_bulk_ingest_events (files : List (List Document)) : List IngestEvent :=
  files.map (fun _ => IngestEvent.extract) ++ batch_save_docs_events files.flatten

/-- Event trace of `ParallelizedIngestComponent._save_docs` (lines 420-446);
same structure as the batch strategy's. -/
def parallelized_save_docs_events (documents : List Document) : List IngestEvent :=
  IngestEvent.transform :: IngestEvent.acquire :: IngestEvent.insert_nodes_event ::
    (documents.map (fun _ => IngestEvent.set_hash)
      ++ [IngestEvent.persist, IngestEvent.release])

/-- Event trace of `ParallelizedIngestComponent.ingest` (lines 382-401):
extraction offloaded to the process pool, then `_save_docs`. -/
def parallelized_ingest_events (documents : List Document) : List IngestEvent :=
  IngestEvent.extract :: parallelized_save_docs_events documents

/-- Event trace of `ParallelizedIngestComponent.bulk_ingest` (lines 403-418):
the thread pool maps `self.ingest` over the files; each pooled call
contributes its own `ingest` trace (shown here in completion order — the lock
discipline proved below is a per-call property of each contributed trace). -/
def parallelized_bulk_ingest_events (files : List (List Document)) : List IngestEvent :=
  (files.map (fun documents => parallelized_ingest_events documents)).flatten

/-- A concrete document used to instantiate the metadata theorems. -/
def sample_document : Document :=
  { doc_id := "d1", text := "hello"
    metadata := [("doc_id", MetaVal.str "d1"), ("page_label", MetaVal.str "2"),
                 ("window", MetaVal.str "w"), ("original_text", MetaVal.str "o")]
    excluded_embed_metadata_keys := [], excluded_llm_metadata_keys := []
    hash := "h1" }

/-- A retrieved node whose owning-document reference is the literal string
"-", distinguishing "reference present with value `-`" from "reference
absent". -/
def dash_ref_node : NodeWithScore :=
  { node := { node_id := "n1", content := "t1", metadata := [], embedding := none
              ref_doc_id := some "-", prev_node := none, next_node := none }
    score := none }

/-- A retrieved node with neither an owning-document reference nor a score. -/
def missing_ref_node : NodeWithScore :=
  { node := { node_id := "n2", content := "t2", metadata := [], embedding := none
              ref_doc_id := none, prev_node := none, next_node := none }
    score := none }

/-- First node of a concrete three-node sibling chain ("s1" - "s2" - "s3"). -/
def chain_node_1 : Node :=
  { node_id := "c1", content := "s1", metadata := [], embedding := none
    ref_doc_id := some "doc-c", prev_node := none, next_node := some { node_id := "c2" } }

/-- Middle node of the concrete sibling chain. -/
def chain_node_2 : Node :=
  { node_id := "c2", content := "s2", metadata := [], embedding := none
    ref_doc_id := some "doc-c"
    prev_node := some { node_id := "c1" }, next_node := some { node_id := "c3" } }

/-- Last node of the concrete sibling chain; its forward pointer is `none`
(the chain boundary). -/
def chain_node_3 : Node :=
  { node_id := "c3", content := "s3", metadata := [], embedding := none
    ref_doc_id := some "doc-c", prev_node := some { node_id := "c2" }, next_node := none }

/-- A store holding the whole three-node chain. -/
def chain_store : DocStore :=
  [("c1", chain_node_1), ("c2", chain_node_2), ("c3", chain_node_3)]

/-- An empty pipeline state: fresh Index Store, nothing persisted yet. -/
def empty_pipeline_state : PipelineState :=
  { store := { ref_docs := [], nodes := [], embeddings := [], hashes := [] }
    persisted := none }

/-- A concrete document used to instantiate the hash-recording theorem. -/
def doc_a : Document :=
  { doc_id := "a", text := "ta", metadata := [], excluded_embed_metadata_keys := []
    excluded_llm_metadata_keys := [], hash := "ha" }

/-- A second concrete document with a distinct id. -/
def doc_b : Document :=
  { doc_id := "b", text := "tb", metadata := [], excluded_embed_metadata_keys := []
    excluded_llm_metadata_keys := [], hash := "hb" }

/- ------------------------------------------------------------------ -/
/- Association-list lemmas shared by the claims.                       -/
/- ------------------------------------------------------------------ -/

theorem lookupKey_setKey_self {α : Type} (k : String) (v : α) (m : List (String × α)) :
    lookupKey k (setKey k v m) = some v := by
  induction m with
  | nil => simp [setKey, lookupKey]
  | cons kv rest ih =>
    obtain ⟨k', v'⟩ := kv
    by_cases h : k' = k
    · simp [setKey, h, lookupKey]
    · simp [setKey, h, lookupKey, ih]

theorem lookupKey_setKey_ne {α : Type} {k k' : String} (v : α) (m : List (String × α))
    (h : k ≠ k') : lookupKey k (setKey k' v m) = lookupKey k m := by
  induction m with
  | nil => simp [setKey, lookupKey, Ne.symm h]
  | cons kv rest ih =>
    obtain ⟨k₀, v₀⟩ := kv
    by_cases h₀ : k₀ = k'
    · subst h₀
      simp [setKey, lookupKey, Ne.symm h]
    · by_cases h₁ : k₀ = k
      · simp [setKey, lookupKey, h₀, h₁, h]
      · simp [setKey, lookupKey, h₀, h₁, ih]

theorem setKey_setKey {α : Type} (k : String) (v : α) (m : List (String × α)) :
    setKey k v (setKey k v m) = setKey k v m := by
  induction m with
  | nil => simp [setKey]
  | cons kv rest ih =>
    obtain ⟨k', v'⟩ := kv
    by_cases h : k' = k
    · simp [setKey, h]
    · simp [setKey, h, ih]

theorem mem_popKey {α : Type} {a : String × α} {m : List (String × α)} {k : String}
    (h : a ∈ popKey k m) : a ∈ m := by
  induction m with
  | nil => simp [popKey] at h
  | cons kv rest ih =>
    obtain ⟨k', v'⟩ := kv
    by_cases h₀ : k' = k
    · simp only [popKey, if_pos h₀] at h
      exact List.mem_cons_of_mem _ (ih h)
    · simp only [popKey, if_neg h₀, List.mem_cons] at h
      rcases h with h | h
      · exact List.mem_cons.mpr (Or.inl h)
      · exact List.mem_cons_of_mem _ (ih h)

theorem popKey_key_ne {α : Type} {a : String × α} {m : List (String × α)} {k : String}
    (h : a ∈ popKey k m) : a.1 ≠ k := by
  induction m with
  | nil => simp [popKey] at h
  | cons kv rest ih =>
    obtain ⟨k', v'⟩ := kv
    by_cases h₀ : k' = k
    · simp only [popKey, if_pos h₀] at h
      exact ih h
    · simp only [popKey, if_neg h₀, List.mem_cons] at h
      rcases h with h | h
      · simpa [h] using h₀
      · exact ih h

theorem popKey_eq_self_of {α : Type} (k : String) (m : List (String × α))
    (h : ∀ a ∈ m, a.1 ≠ k) : popKey k m = m := by
  induction m with
  | nil => rfl
  | cons kv rest ih =>
    have hk : kv.1 ≠ k := h kv (List.mem_cons_self kv rest)
    obtain ⟨k', v'⟩ := kv
    simp only [popKey, if_neg hk]
    rw [ih (fun a ha => h a (List.mem_cons_of_mem _ ha))]

theorem lookupKey_popKey_self {α : Type} (k : String) (m : List (String × α)) :
    lookupKey k (popKey k m) = none := by
  induction m with
  | nil => rfl
  | cons kv rest ih =>
    obtain ⟨k', v'⟩ := kv
    by_cases h : k' = k
    · simpa [popKey, h] using ih
    · simpa [popKey, h, lookupKey] using ih

theorem lookupKey_popKey_ne {α : Type} {k k' : String} (m : List (String × α))
    (h : k ≠ k') : lookupKey k (popKey k' m) = lookupKey k m := by
  induction m with
  | nil => rfl
  | cons kv rest ih =>
    obtain ⟨k₀, v₀⟩ := kv
    by_cases h₀ : k₀ = k'
    · subst h₀
      simpa [popKey, lookupKey, Ne.symm h] using ih
    · by_cases h₁ : k₀ = k
      · simp [popKey, h₀, lookupKey, h₁, h]
      · simpa [popKey, h₀, lookupKey, h₁] using ih

theorem curate_metadata_eq_pops (m : List (String × MetaVal)) :
    curate_metadata m = popKey "original_text" (popKey "window" (popKey "doc_id" m)) := rfl

theorem popKey_curate_doc_id (m : List (String × MetaVal)) :
    popKey "doc_id" (curate_metadata m) = curate_metadata m := by
  refine popKey_eq_self_of _ _ (fun a ha => ?_)
  rw [curate_metadata_eq_pops] at ha
  exact popKey_key_ne (mem_popKey (mem_popKey ha))

theorem popKey_curate_window (m : List (String × MetaVal)) :
    popKey "window" (curate_metadata m) = curate_metadata m := by
  refine popKey_eq_self_of _ _ (fun a ha => ?_)
  rw [curate_metadata_eq_pops] at ha
  exact popKey_key_ne (mem_popKey ha)

theorem popKey_curate_original_text (m : List (String × MetaVal)) :
    popKey "original_text" (curate_metadata m) = curate_metadata m := by
  refine popKey_eq_self_of _ _ (fun a ha => ?_)
  rw [curate_metadata_eq_pops] at ha
  exact popKey_key_ne ha

theorem exclude_metadata_doc_idem (d : Document) :
    exclude_metadata_doc (exclude_metadata_doc d) = exclude_metadata_doc d := by
  simp [exclude_metadata_doc, setKey_setKey]

/-- C8: metadata curation is idempotent — for every metadata mapping,
re-curating already-curated metadata is a no-op, and re-applying the
transformer's metadata-exclusion step to already-processed documents (one
document or a whole list) is a no-op. -/
theorem curation_and_exclusion_idempotent (m : List (String × MetaVal)) (d : Document)
    (documents : List Document) :
    curate_metadata (curate_metadata m) = curate_metadata m
    ∧ exclude_metadata_doc (exclude_metadata_doc d) = exclude_metadata_doc d
    ∧ exclude_metadata (exclude_metadata documents) = exclude_metadata documents := by
  refine ⟨?_, exclude_metadata_doc_idem d, ?_⟩
  · rw [curate_metadata_eq_pops (curate_metadata m), popKey_curate_doc_id,
      popKey_curate_window, popKey_curate_original_text]
  · simp only [exclude_metadata, List.map_map]
    exact List.map_congr_left (fun d' _ => exclude_metadata_doc_idem d')

/-- C9: `IngestedDoc.from_document` curates the source Document's own metadata
in place — afterwards the keys "doc_id", "window" and "original_text" are gone
from the Document's metadata itself, every other binding is unchanged, the
constructed IngestedDoc carries exactly that mapping, and every other field of
the Document is untouched. -/
theorem from_document_mutates_source_metadata (d : Document) :
    (from_document d).2.metadata = curate_metadata d.metadata
    ∧ lookupKey "doc_id" (from_document d).2.metadata = none
    ∧ lookupKey "window" (from_document d).2.metadata = none
    ∧ lookupKey "original_text" (from_document d).2.metadata = none
    ∧ (∀ k, k ≠ "doc_id" → k ≠ "window" → k ≠ "original_text" →
        lookupKey k (from_document d).2.metadata = lookupKey k d.metadata)
    ∧ (from_document d).1.doc_metadata = some ((from_document d).2.metadata)
    ∧ (from_document d).1.doc_id = d.doc_id
    ∧ (from_document d).2.doc_id = d.doc_id
    ∧ (from_document d).2.text = d.text
    ∧ (from_document d).2.excluded_embed_metadata_keys = d.excluded_embed_metadata_keys := by
  refine ⟨rfl, ?_, ?_, ?_, ?_, rfl, rfl, rfl, rfl, rfl⟩
  · show lookupKey "doc_id" (curate_metadata d.metadata) = none
    rw [curate_metadata_eq_pops,
      lookupKey_popKey_ne _ (by decide), lookupKey_popKey_ne _ (by decide),
      lookupKey_popKey_self]
  · show lookupKey "window" (curate_metadata d.metadata) = none
    rw [curate_metadata_eq_pops,
      lookupKey_popKey_ne _ (by decide), lookupKey_popKey_self]
  · show lookupKey "original_text" (curate_metadata d.metadata) = none
    rw [curate_metadata_eq_pops, lookupKey_popKey_self]
  · intro k h₁ h₂ h₃
    show lookupKey k (curate_metadata d.metadata) = lookupKey k d.metadata
    rw [curate_metadata_eq_pops, lookupKey_popKey_ne _ h₃, lookupKey_popKey_ne _ h₂,
      lookupKey_popKey_ne _ h₁]

/-- Witness for C9 at a concrete document: the curated keys are gone from the
source document's own metadata and an unrelated key keeps its value. -/
theorem from_document_mutates_source_metadata_witness :
    lookupKey "doc_id" (from_document sample_document).2.metadata = none
    ∧ lookupKey "page_label" (from_document sample_document).2.metadata
        = lookupKey "page_label" sample_document.metadata :=
  ⟨(from_document_mutates_source_metadata sample_document).2.1,
   (from_document_mutates_source_metadata sample_document).2.2.2.2.1 "page_label"
     (by decide) (by decide) (by decide)⟩

/-- Counterexample for C10 as stated: for a node whose `ref_doc_id` is present
and equal to the literal string "-", the chunk's doc id is "-" although the
owning-document reference is not absent, so "doc id equals `-` exactly when
`ref_doc_id` is absent" fails. -/
theorem chunk_doc_id_dash_iff_counterexample :
    ¬ (((Chunk.from_node dash_ref_node).document.doc_id = "-")
        ↔ dash_ref_node.node.ref_doc_id = none) := by
  decide

/-- C10 (amended): `Chunk.from_node` substitutes "-" for an absent
owning-document reference (and passes a present reference through, so the doc
id is "-" exactly when the reference is absent or itself "-"), substitutes 0.0
for a missing score, and is total — it never fails on these absent fields. -/
theorem chunk_from_node_defaults (node : NodeWithScore) :
    (node.node.ref_doc_id = none → (Chunk.from_node node).document.doc_id = "-")
    ∧ (∀ r, node.node.ref_doc_id = some r → (Chunk.from_node node).document.doc_id = r)
    ∧ (node.score = none → (Chunk.from_node node).score = 0)
    ∧ (Chunk.from_node node).text = node.node.content
    ∧ (Chunk.from_node node).document.doc_metadata = some node.node.metadata := by
  refine ⟨?_, ?_, ?_, rfl, rfl⟩
  · intro h
    simp [Chunk.from_node, h]
  · intro r h
    simp [Chunk.from_node, h]
  · intro h
    simp [Chunk.from_node, orFloat, h]

/-- Witness for C10 (amended) at a concrete node with both fields absent. -/
theorem chunk_from_node_defaults_witness :
    (Chunk.from_node missing_ref_node).document.doc_id = "-"
    ∧ (Chunk.from_node missing_ref_node).score = 0 :=
  ⟨(chunk_from_node_defaults missing_ref_node).1 rfl,
   (chunk_from_node_defaults missing_ref_node).2.2.1 rfl⟩

theorem walk_chain (store : DocStore) (forward : Bool) :
    ∀ (P : Nat) (node : Node) (ns : List Node), chain_from store forward node ns = true →
      get_sibling_nodes_text_from store node P forward
        = Except.ok ((ns.take P).map Node.content) := by
  intro P
  induction P with
  | zero => intro node ns _; rfl
  | succ n ih =>
    intro node ns h
    cases ns with
    | nil =>
      simp only [chain_from, Option.isNone_iff_eq_none] at h
      simp [get_sibling_nodes_text_from, h]
    | cons hd tl =>
      simp only [chain_from] at h
      cases hstep : sibling_step node forward with
      | none => rw [hstep] at h; simp at h
      | some info =>
        rw [hstep] at h
        simp only [Bool.and_eq_true, decide_eq_true_eq] at h
        obtain ⟨hlook, hchain⟩ := h
        simp only [get_sibling_nodes_text_from, hstep, get_node, hlook, ih hd tl hchain,
          List.take_succ_cons, List.map_cons]

/-- Counterexample for C3 as stated: walking backward from the last node of
the intact three-node chain s1 - s2 - s3 with P = 2 returns the two available
preceding texts nearest-first, ["s2", "s1"] — not in original order
["s1", "s2"] — because the loop in `_get_sibling_nodes_text` appends each
explored node's text in exploration order for both directions. -/
theorem sibling_backward_walk_reverse_order_counterexample :
    get_sibling_nodes_text chain_store { node := chain_node_3, score := none } 2 false
      = Except.ok ["s2", "s1"]
    ∧ (["s2", "s1"] : List String) ≠ ["s1", "s2"] :=
  ⟨rfl, by decide⟩

/-- C3 (amended): for every node and requested sibling-expansion count P, when
the node's sibling chains are intact in the store, each walk returns exactly
min(P, number of siblings available before the chain boundary) texts — never
padding, never erroring, and returning exactly the available siblings when P
exceeds the chain length.  The forward walk lists the texts in original
order (`next_ns` is the following-sibling chain in document order); the
backward walk lists them in exploration order, nearest sibling first — the
reverse of the original order of the preceding siblings `prev_ps`. -/
theorem sibling_expansion_min_available (store : DocStore) (nws : NodeWithScore) (P : Nat)
    (next_ns prev_ps : List Node)
    (hnext : chain_from store true nws.node next_ns = true)
    (hprev : chain_from store false nws.node prev_ps.reverse = true) :
    get_sibling_nodes_text store nws P true = Except.ok ((next_ns.take P).map Node.content)
    ∧ ((next_ns.take P).map Node.content).length = min P next_ns.length
    ∧ get_sibling_nodes_text store nws P false
        = Except.ok ((prev_ps.reverse.take P).map Node.content)
    ∧ ((prev_ps.reverse.take P).map Node.content).length = min P prev_ps.length
    ∧ (prev_ps.reverse.take P).map Node.content
        = ((prev_ps.map Node.content).reverse).take P := by
  refine ⟨walk_chain store true P nws.node next_ns hnext, ?_,
    walk_chain store false P nws.node prev_ps.reverse hprev, ?_, ?_⟩
  · simp [List.length_take]
  · simp [List.length_take]
  · simp [List.map_take, List.map_reverse]

/-- Witness for C3 (amended) on the concrete chain: from its last node,
requesting 2 preceding siblings returns the 2 available texts nearest-first. -/
theorem sibling_expansion_min_available_witness :
    chain_from chain_store false chain_node_3 [chain_node_1, chain_node_2].reverse = true
    ∧ get_sibling_nodes_text chain_store { node := chain_node_3, score := none } 2 false
        = Except.ok (([chain_node_1, chain_node_2].reverse.take 2).map Node.content) :=
  ⟨by decide,
   (sibling_expansion_min_available chain_store { node := chain_node_3, score := none } 2
      [] [chain_node_1, chain_node_2] (by decide) (by decide)).2.2.1⟩

/-- Counterexample for C2 as stated: in a store where node "a"'s forward
sibling pointer targets the deleted node "b", the sibling walk (and with it
the whole retrieve request) fails with the store's "not found" error instead
of returning a shorter list of texts. -/
theorem sibling_walk_dangling_fails_counterexample :
    get_sibling_nodes_text dangling_store { node := dangling_node, score := some 1 } 1 true
      = Except.error "node_id b not found"
    ∧ retrieve_relevant dangling_store [{ node := dangling_node, score := some 1 }] 1
      = Except.error "node_id b not found" := by
  constructor <;> rfl

/-- C2 (amended): the sibling walk tolerates only the chain boundary — an
absent (`None`) sibling pointer ends the walk with a shorter (here empty)
list — but a sibling pointer whose target node is missing from the node store
makes the store lookup fail, and that error propagates out of the walk
(and hence fails the retrieve request, as the counterexample shows). -/
theorem sibling_walk_boundary_vs_dangling (store : DocStore) (nws : NodeWithScore)
    (P : Nat) (forward : Bool) :
    (sibling_step nws.node forward = none →
      get_sibling_nodes_text store nws P forward = Except.ok [])
    ∧ (∀ info, sibling_step nws.node forward = some info →
        lookupKey info.node_id store = none → 0 < P →
        get_sibling_nodes_text store nws P forward
          = Except.error ("node_id " ++ info.node_id ++ " not found")) := by
  constructor
  · intro h
    cases P with
    | zero => rfl
    | succ n => simp [get_sibling_nodes_text, get_sibling_nodes_text_from, h]
  · intro info hstep hlook hP
    cases P with
    | zero => exact absurd hP (by simp)
    | succ n =>
      simp [get_sibling_nodes_text, get_sibling_nodes_text_from, hstep, get_node, hlook]

/-- Witness for C2 (amended) at the concrete dangling store. -/
theorem sibling_walk_boundary_vs_dangling_witness :
    sibling_step dangling_node true = some { node_id := "b" }
    ∧ lookupKey "b" dangling_store = none
    ∧ get_sibling_nodes_text dangling_store { node := dangling_node, score := some 1 } 2 true
        = Except.error "node_id b not found" :=
  ⟨rfl, rfl,
   (sibling_walk_boundary_vs_dangling dangling_store
       { node := dangling_node, score := some 1 } 2 true).2
     { node_id := "b" } rfl rfl (by decide)⟩

/-- C4: deleting a `doc_id` that is not present in the store fails with the
defined "not found" condition surfaced to the caller, and leaves the whole
pipeline state — document store, vector index, hash map, and the persisted
snapshot — unchanged. -/
theorem delete_missing_doc_not_found (st : PipelineState) (doc_id : String)
    (h : lookupKey doc_id st.store.ref_docs = none) :
    delete st doc_id = (Except.error ("doc_id " ++ doc_id ++ " not found"), st)
    ∧ (delete st doc_id).2.store = st.store
    ∧ (delete st doc_id).2.persisted = st.persisted := by
  have h1 : delete st doc_id = (Except.error ("doc_id " ++ doc_id ++ " not found"), st) := by
    simp [delete, delete_ref_doc, h]
  exact ⟨h1, by rw [h1], by rw [h1]⟩

/-- Witness for C4 on the empty pipeline state. -/
theorem delete_missing_doc_not_found_witness :
    lookupKey "ghost" empty_pipeline_state.store.ref_docs = none
    ∧ delete empty_pipeline_state "ghost"
        = (Except.error "doc_id ghost not found", empty_pipeline_state) :=
  ⟨rfl, (delete_missing_doc_not_found empty_pipeline_state "ghost" rfl).1⟩

/-- C5: for both worker-pool strategies, a worker count of zero or a negative
number makes construction fail (with the worker-count precondition violation
whenever the transformations precondition holds), and for every worker count
greater than zero construction gets past the worker-count check — any
remaining failure is the unrelated transformations precondition. -/
theorem worker_count_precondition (t : Nat) (w : Int) :
    (w ≤ 0 → 2 ≤ t →
      batch_ingest_component_init t w = Except.error "count_workers must be greater than 0"
      ∧ parallelized_ingest_component_init t w
          = Except.error "count_workers must be greater than 0")
    ∧ (w ≤ 0 →
      (∃ msg, batch_ingest_component_init t w = Except.error msg)
      ∧ (∃ msg, parallelized_ingest_component_init t w = Except.error msg))
    ∧ (0 < w →
      (batch_ingest_component_init t w = Except.ok ()
        ∨ batch_ingest_component_init t w
            = Except.error "Embeddings must be in the transformations")
      ∧ (parallelized_ingest_component_init t w = Except.ok ()
        ∨ parallelized_ingest_component_init t w
            = Except.error "Embeddings must be in the transformations")) := by
  refine ⟨?_, ?_, ?_⟩
  · intro hw ht
    have h1 : ¬ t < 2 := by omega
    constructor <;> simp [batch_ingest_component_init, parallelized_ingest_component_init, h1, hw]
  · intro hw
    by_cases ht : t < 2
    · exact ⟨⟨"Embeddings must be in the transformations",
          by simp [batch_ingest_component_init, ht]⟩,
        ⟨"Embeddings must be in the transformations",
          by simp [parallelized_ingest_component_init, ht]⟩⟩
    · exact ⟨⟨"count_workers must be greater than 0",
          by simp [batch_ingest_component_init, ht, hw]⟩,
        ⟨"count_workers must be greater than 0",
          by simp [parallelized_ingest_component_init, ht, hw]⟩⟩
  · intro hw
    have hw' : ¬ w ≤ 0 := by omega
    by_cases ht : t < 2
    · constructor <;> right <;>
        simp [batch_ingest_component_init, parallelized_ingest_component_init, ht]
    · constructor <;> left <;>
        simp [batch_ingest_component_init, parallelized_ingest_component_init, ht, hw']

/-- Witness for C5: with two transformations, zero workers fail construction
and four workers pass the worker-count check. -/
theorem worker_count_precondition_witness :
    (batch_ingest_component_init 2 0 = Except.error "count_workers must be greater than 0"
      ∧ parallelized_ingest_component_init 2 0
          = Except.error "count_workers must be greater than 0")
    ∧ (batch_ingest_component_init 2 4 = Except.ok ()
      ∨ batch_ingest_component_init 2 4
          = Except.error "Embeddings must be in the transformations") :=
  ⟨(worker_count_precondition 2 0).1 (by decide) (by decide),
   ((worker_count_precondition 2 4).2.2 (by decide)).1⟩

theorem hashes_foldl_set_document_hash (documents : List Document) (s : IndexStore) :
    (documents.foldl (fun s' d => set_document_hash s' d.doc_id d.hash) s).hashes
      = documents.foldl (fun hs d => setKey d.doc_id d.hash hs) s.hashes := by
  induction documents generalizing s with
  | nil => rfl
  | cons d ds ih =>
    simp only [List.foldl_cons]
    rw [ih]
    rfl

theorem hashes_foldl_index_insert (transform : Document → List Node)
    (documents : List Document) (s : IndexStore) :
    (documents.foldl (fun s' d => index_insert transform s' d) s).hashes
      = documents.foldl (fun hs d => setKey d.doc_id d.hash hs) s.hashes := by
  induction documents generalizing s with
  | nil => rfl
  | cons d ds ih =>
    simp only [List.foldl_cons]
    rw [ih]
    rfl

theorem lookup_foldl_setKey_not_mem (k : String) (documents : List Document)
    (hs : List (String × String)) (h : k ∉ documents.map Document.doc_id) :
    lookupKey k (documents.foldl (fun hs' d => setKey d.doc_id d.hash hs') hs)
      = lookupKey k hs := by
  induction documents generalizing hs with
  | nil => rfl
  | cons d ds ih =>
    simp only [List.map_cons, List.mem_cons] at h
    push_neg at h
    simp only [List.foldl_cons]
    rw [ih _ h.2, lookupKey_setKey_ne _ _ h.1]

theorem lookup_foldl_setKey_mem :
    ∀ (documents : List Document) (d : Document),
      (documents.map Document.doc_id).Nodup → d ∈ documents →
      ∀ hs : List (String × String),
        lookupKey d.doc_id (documents.foldl (fun hs' x => setKey x.doc_id x.hash hs') hs)
          = some d.hash := by
  intro documents
  induction documents with
  | nil => intro d _ hmem _; simp at hmem
  | cons x ds ih =>
    intro d hnodup hmem hs
    simp only [List.map_cons, List.nodup_cons] at hnodup
    rcases List.mem_cons.mp hmem with heq | hmem'
    · subst heq
      simp only [List.foldl_cons]
      rw [lookup_foldl_setKey_not_mem _ _ _ hnodup.1, lookupKey_setKey_self]
    · simp only [List.foldl_cons]
      exact ih d hnodup.2 hmem' _

/-- C6: for every Document inserted by any of the three strategies (documents
with pairwise distinct ids, as content-derived ids are), once `_save_docs`
completes, the store's hash map holds `doc_id → content_hash` for that
document. -/
theorem document_hash_recorded (transform1 : Document → List Node)
    (transform2 transform3 : List Document → List Node)
    (st1 st2 st3 : PipelineState) (documents : List Document) (d : Document)
    (hnodup : (documents.map Document.doc_id).Nodup) (hmem : d ∈ documents) :
    lookupKey d.doc_id (simple_save_docs transform1 st1 documents).1.store.hashes
      = some d.hash
    ∧ lookupKey d.doc_id (batch_save_docs transform2 st2 documents).1.store.hashes
      = some d.hash
    ∧ lookupKey d.doc_id (parallelized_save_docs transform3 st3 documents).1.store.hashes
      = some d.hash := by
  refine ⟨?_, ?_, ?_⟩
  · have h1 : (simple_save_docs transform1 st1 documents).1.store.hashes
        = (documents.foldl (fun s x => index_insert transform1 s x) st1.store).hashes := rfl
    rw [h1, hashes_foldl_index_insert]
    exact lookup_foldl_setKey_mem documents d hnodup hmem _
  · have h2 : (batch_save_docs transform2 st2 documents).1.store.hashes
        = (documents.foldl (fun s x => set_document_hash s x.doc_id x.hash)
            (insert_nodes st2.store (transform2 documents))).hashes := rfl
    rw [h2, hashes_foldl_set_document_hash]
    exact lookup_foldl_setKey_mem documents d hnodup hmem _
  · have h3 : (parallelized_save_docs transform3 st3 documents).1.store.hashes
        = (documents.foldl (fun s x => set_document_hash s x.doc_id x.hash)
            (insert_nodes st3.store (transform3 documents))).hashes := rfl
    rw [h3, hashes_foldl_set_document_hash]
    exact lookup_foldl_setKey_mem documents d hnodup hmem _

/-- Witness for C6 with two concrete documents under all three strategies. -/
theorem document_hash_recorded_witness :
    lookupKey doc_b.doc_id
        (simple_save_docs (fun _ => []) empty_pipeline_state [doc_a, doc_b]).1.store.hashes
      = some doc_b.hash
    ∧ lookupKey doc_b.doc_id
        (batch_save_docs (fun _ => []) empty_pipeline_state [doc_a, doc_b]).1.store.hashes
      = some doc_b.hash
    ∧ lookupKey doc_b.doc_id
        (parallelized_save_docs (fun _ => []) empty_pipeline_state [doc_a, doc_b]).1.store.hashes
      = some doc_b.hash :=
  document_hash_recorded (fun _ => []) (fun _ => []) (fun _ => [])
    empty_pipeline_state empty_pipeline_state empty_pipeline_state
    [doc_a, doc_b] doc_b (by decide) (by decide)

/-- C7: a file whose extension has no registered specialized reader does not
fail ingestion — the raw text is handed to the plain-text string reader, and
the result is exactly those plain-text documents (with the usual file-name
metadata and exclusion post-processing); in particular the call returns
successfully and the documents carry the file's content as their text. -/
theorem unknown_extension_plain_text_fallback
    (readers : List (String × (FileData → Except String (List Document))))
    (mk_doc_id mk_hash : String → String) (file_name : String) (file_data : FileData)
    (h : lookupKey (path_suffix file_name) readers = none) :
    transform_file_to_documents readers mk_doc_id mk_hash file_name file_data
      = Except.ok (exclude_metadata
          ((string_iterable_reader_load_data mk_doc_id mk_hash [file_data.content]).map
            (fun d => { d with metadata := setKey "file_name" (MetaVal.str file_name) d.metadata })))
    ∧ ∃ ds, transform_file_to_documents readers mk_doc_id mk_hash file_name file_data
          = Except.ok ds
        ∧ ds.map Document.text = [file_data.content] := by
  have h1 : transform_file_to_documents readers mk_doc_id mk_hash file_name file_data
      = Except.ok (exclude_metadata
          ((string_iterable_reader_load_data mk_doc_id mk_hash [file_data.content]).map
            (fun d => { d with metadata := setKey "file_name" (MetaVal.str file_name) d.metadata }))) := by
    simp [transform_file_to_documents, load_file_to_documents, h]
  refine ⟨h1, ⟨_, h1, ?_⟩⟩
  simp [exclude_metadata, exclude_metadata_doc, string_iterable_reader_load_data]

/-- Witness for C7: a `.txt` file against a registry with no `.txt` entry. -/
theorem unknown_extension_plain_text_fallback_witness :
    lookupKey (path_suffix "notes.txt")
        ([] : List (String × (FileData → Except String (List Document)))) = none
    ∧ ∃ ds, transform_file_to_documents [] (fun t => t) (fun t => t) "notes.txt"
          { content := "hello" } = Except.ok ds
        ∧ ds.map Document.text = ["hello"] :=
  ⟨rfl, (unknown_extension_plain_text_fallback [] (fun t => t) (fun t => t) "notes.txt"
      { content := "hello" } rfl).2⟩

theorem eul_map_insert (documents : List Document) (rest : List IngestEvent) :
    events_under_lock 1 (documents.map (fun _ => IngestEvent.insert_document) ++ rest)
      = documents.map (fun _ => IngestEvent.insert_document) ++ events_under_lock 1 rest := by
  induction documents with
  | nil => rfl
  | cons d ds ih =>
    simp only [List.map_cons, List.cons_append]
    rw [show events_under_lock 1
        (IngestEvent.insert_document :: (ds.map (fun _ => IngestEvent.insert_document) ++ rest))
        = IngestEvent.insert_document
          :: events_under_lock 1 (ds.map (fun _ => IngestEvent.insert_document) ++ rest) from rfl,
      ih]

theorem eul_map_set_hash (documents : List Document) (rest : List IngestEvent) :
    events_under_lock 1 (documents.map (fun _ => IngestEvent.set_hash) ++ rest)
      = documents.map (fun _ => IngestEvent.set_hash) ++ events_under_lock 1 rest := by
  induction documents with
  | nil => rfl
  | cons d ds ih =>
    simp only [List.map_cons, List.cons_append]
    rw [show events_under_lock 1
        (IngestEvent.set_hash :: (ds.map (fun _ => IngestEvent.set_hash) ++ rest))
        = IngestEvent.set_hash
          :: events_under_lock 1 (ds.map (fun _ => IngestEvent.set_hash) ++ rest) from rfl,
      ih]

theorem eul_simple_block (documents : List Document) (rest : List IngestEvent) :
    events_under_lock 0 ((IngestEvent.extract :: simple_save_docs_events documents) ++ rest)
      = (documents.map (fun _ => IngestEvent.insert_document) ++ [IngestEvent.persist])
        ++ events_under_lock 0 rest := by
  show events_under_lock 1
      ((documents.map (fun _ => IngestEvent.insert_document)
        ++ [IngestEvent.persist, IngestEvent.release]) ++ rest) = _
  rw [List.append_assoc, eul_map_insert,
    show events_under_lock 1 ([IngestEvent.persist, IngestEvent.release] ++ rest)
      = IngestEvent.persist :: events_under_lock 0 rest from rfl]
  simp

theorem eul_batch_block (documents : List Document) (rest : List IngestEvent) :
    events_under_lock 0 (batch_save_docs_events documents ++ rest)
      = (IngestEvent.insert_nodes_event
          :: documents.map (fun _ => IngestEvent.set_hash) ++ [IngestEvent.persist])
        ++ events_under_lock 0 rest := by
  show IngestEvent.insert_nodes_event :: events_under_lock 1
      ((documents.map (fun _ => IngestEvent.set_hash)
        ++ [IngestEvent.persist, IngestEvent.release]) ++ rest) = _
  rw [List.append_assoc, eul_map_set_hash,
    show events_under_lock 1 ([IngestEvent.persist, IngestEvent.release] ++ rest)
      = IngestEvent.persist :: events_under_lock 0 rest from rfl]
  simp

theorem eul_skip_extracts (files : List (List Document)) (rest : List IngestEvent) :
    events_under_lock 0 (files.map (fun _ => IngestEvent.extract) ++ rest)
      = events_under_lock 0 rest := by
  induction files with
  | nil => rfl
  | cons f fs ih =>
    simpa only [List.map_cons, List.cons_append] using ih

theorem eul_simple_bulk (files : List (List Document)) :
    events_under_lock 0 (simple_bulk_ingest_events files)
      = (files.map (fun documents =>
          documents.map (fun _ => IngestEvent.insert_document) ++ [IngestEvent.persist])).flatten := by
  induction files with
  | nil => rfl
  | cons f fs ih =>
    show events_under_lock 0
        ((IngestEvent.extract :: simple_save_docs_events f) ++ simple_bulk_ingest_events fs) = _
    rw [eul_simple_block, ih]
    simp

theorem eul_parallelized_bulk (files : List (List Document)) :
    events_under_lock 0 (parallelized_bulk_ingest_events files)
      = (files.map (fun documents =>
          IngestEvent.insert_nodes_event
            :: documents.map (fun _ => IngestEvent.set_hash) ++ [IngestEvent.persist])).flatten := by
  induction files with
  | nil => rfl
  | cons f fs ih =>
    show events_under_lock 0
        (batch_save_docs_events f ++ parallelized_bulk_ingest_events fs) = _
    rw [eul_batch_block, ih]
    simp

theorem all_lock_section_simple (documents : List Document) :
    ((documents.map (fun _ => IngestEvent.insert_document)
      ++ [IngestEvent.persist]).all lock_section_ok) = true := by
  rw [List.all_eq_true]
  intro e he
  rcases List.mem_append.mp he with h | h
  · rcases List.mem_map.mp h with ⟨d, _, rfl⟩
    rfl
  · rcases List.mem_singleton.mp h with rfl
    rfl

theorem all_lock_section_batch (documents : List Document) :
    ((IngestEvent.insert_nodes_event
      :: documents.map (fun _ => IngestEvent.set_hash)
      ++ [IngestEvent.persist]).all lock_section_ok) = true := by
  rw [List.all_eq_true]
  intro e he
  rcases List.mem_cons.mp he with rfl | h
  · rfl
  · rcases List.mem_append.mp h with h | h
    · rcases List.mem_map.mp h with ⟨d, _, rfl⟩
      rfl
    · rcases List.mem_singleton.mp h with rfl
      rfl

/-- C1: for every strategy (Serial/Simple, Batch, Parallelized) and every
`ingest` or `bulk_ingest` call, every event that occurs while the index lock
is held is a store mutation or the persist — extraction, node transformation
and embedding are never performed under the lock. -/
theorem lock_only_around_store_mutation (documents : List Document)
    (files : List (List Document)) :
    ((events_under_lock 0 (simple_ingest_events documents)).all lock_section_ok = true)
    ∧ ((events_under_lock 0 (simple_bulk_ingest_events files)).all lock_section_ok = true)
    ∧ ((events_under_lock 0 (batch_ingest_events documents)).all lock_section_ok = true)
    ∧ ((events_under_lock 0 (batch_bulk_ingest_events files)).all lock_section_ok = true)
    ∧ ((events_under_lock 0 (parallelized_ingest_events documents)).all lock_section_ok = true)
    ∧ ((events_under_lock 0 (parallelized_bulk_ingest_events files)).all lock_section_ok = true) := by
  have hnil : events_under_lock 0 ([] : List IngestEvent) = [] := rfl
  refine ⟨?_, ?_, ?_, ?_, ?_, ?_⟩
  · have h := eul_simple_block documents []
    simp only [hnil, List.append_nil] at h
    rw [show simple_ingest_events documents
        = IngestEvent.extract :: simple_save_docs_events documents from rfl, h]
    exact all_lock_section_simple documents
  · rw [eul_simple_bulk, List.all_eq_true]
    intro e he
    rcases List.mem_flatten.mp he with ⟨l, hl, hel⟩
    rcases List.mem_map.mp hl with ⟨f, _, rfl⟩
    exact List.all_eq_true.mp (all_lock_section_simple f) e hel
  · have h := eul_batch_block documents []
    simp only [hnil, List.append_nil] at h
    rw [show events_under_lock 0 (batch_ingest_events documents)
        = events_under_lock 0 (batch_save_docs_events documents) from rfl, h]
    exact all_lock_section_batch documents
  · have h := eul_batch_block files.flatten []
    simp only [hnil, List.append_nil] at h
    rw [show events_under_lock 0 (batch_bulk_ingest_events files)
        = events_under_lock 0 (batch_save_docs_events files.flatten)
        from eul_skip_extracts files _, h]
    exact all_lock_section_batch files.flatten
  · have h := eul_batch_block documents []
    simp only [hnil, List.append_nil] at h
    rw [show events_under_lock 0 (parallelized_ingest_events documents)
        = events_under_lock 0 (batch_save_docs_events documents) from rfl, h]
    exact all_lock_section_batch documents
  · rw [eul_parallelized_bulk, List.all_eq_true]
    intro e he
    rcases List.mem_flatten.mp he with ⟨l, hl, hel⟩
    rcases List.mem_map.mp hl with ⟨f, _, rfl⟩
    exact List.all_eq_true.mp (all_lock_section_batch f) e hel

end LocalGPT
